import Mathlib

/-!
Verification development for the workout-log reconciliation pipeline
(files `src/utils/calculations.py`, `src/models/data_processor.py`,
`src/models/workout_analyzer.py`).

Modelling conventions (shallow embedding):
- Python strings are lists of Unicode code points (`Str := List Nat`);
  `str.lower()` is mapped ASCII lowering, `in` is list-infix containment,
  `str.split(sep)` is `splitOn`, `str.strip()` is `strip`.
- Python floats are rationals (`ℚ`); the numeric claims are about the
  exact arithmetic of the formulas, not IEEE rounding.
- pandas timestamps are `Nat` keys that order exactly as the timestamps do
  (minute resolution: `yyyymmdd * 10000 + hh * 100 + mm`); `strftime`
  to calendar-date granularity is truncation to the `yyyymmdd` part.
- pandas DataFrames are lists of records; a thrown Python exception is the
  `Except.error` branch; `DataFrame.sort_values` is modelled with
  `List.mergeSort` (see the remark at `sortByDate` on stability).
-/

namespace VibeWorkout

/-- Python strings, modelled as lists of Unicode code points. -/
abbrev Str : Type := List Nat

/-- Transcription of a Python string literal into its code points. -/
def pyStr (s : String) : Str := s.toList.map Char.toNat

/-- Python `str.lower()` on one code point (ASCII letters; the repository's
exercise names and column names are ASCII). -/
def lowerChar (n : Nat) : Nat := if 65 ≤ n ∧ n ≤ 90 then n + 32 else n

/-- Python `str.lower()`. -/
def lower (s : Str) : Str := s.map lowerChar

/-- Python membership test `needle in hay` on strings: substring containment. -/
def isSubstr (needle hay : Str) : Bool := decide (needle <:+: hay)

/-- Python whitespace, as stripped by `str.strip()`. -/
def isSpaceChar (n : Nat) : Bool :=
  n == 32 || n == 9 || n == 10 || n == 11 || n == 12 || n == 13

/-- Python `str.strip()`: drop leading and trailing whitespace. -/
def strip (s : Str) : Str :=
  ((s.dropWhile isSpaceChar).reverse.dropWhile isSpaceChar).reverse

/-- Python `s.split(d)` for a one-character separator `d`: positional split,
keeping empty tokens (`"a,,b".split(",") = ["a", "", "b"]`,
`"".split(",") = [""]`). From the uses of `.split` in
`DataProcessor.load_data`. -/
def splitOn (d : Nat) : Str → List Str
  | [] => [[]]
  | c :: cs =>
    match splitOn d cs with
    | [] => [[]]
    | t :: ts => if c = d then [] :: t :: ts else (c :: t) :: ts

/-- Source of `calculate_1rm` in `src/utils/calculations.py`:
Epley formula `weight * (1 + reps/30)`. -/
def calculate_1rm (weight reps : ℚ) : ℚ := weight * (1 + reps / 30)

/-- Source of `standardize_exercise_name` in `src/utils/calculations.py`:
lowercase, then an ordered rule list with first match winning, falling back
to the lowercased input. -/
def standardize_exercise_name (exercise : Str) : Str :=
  let e := lower exercise
  if isSubstr (pyStr "lat pulldown") e then
    pyStr "Lat Pulldown (All Variations)"
  else if isSubstr (pyStr "barbell bench press") e
      || isSubstr (pyStr "bench press (barbell)") e then
    pyStr "Barbell Bench Press"
  else if isSubstr (pyStr "dumbbell bench press") e
      || isSubstr (pyStr "bench press (dumbbell)") e then
    pyStr "Dumbbell Bench Press"
  else
    e

/-- Originating application of a record. -/
inductive Source : Type
  | hevy
  | strong
  | jefit
deriving DecidableEq, Repr

/-- Source of `DataProcessor._detect_source_type` in
`src/models/data_processor.py`: classify an uploaded sample by which columns
are present; `none` models the `None` return (the spec's
`FormatDetectionError` / `Unrecognized`). -/
def detect_source_type (columns : List Str) : Option Source :=
  if pyStr "exercise_title" ∈ columns then some Source.hevy
  else if pyStr "Exercise Name" ∈ columns then some Source.strong
  else if pyStr "ename" ∈ columns ∧ pyStr "logs" ∈ columns then some Source.jefit
  else none

/-- Digit code point predicate. -/
def isDigit (n : Nat) : Bool := 48 ≤ n && n ≤ 57

/-- Numeric value of a digit string (0 for the empty string). -/
def digitsVal (s : Str) : Nat := s.foldl (fun acc n => 10 * acc + (n - 48)) 0

/-- Parse of a nonempty all-digit string. -/
def parseNat (s : Str) : Option Nat :=
  if s.all isDigit && !s.isEmpty then some (digitsVal s) else none

/-- Unsigned part of a Python float literal: digits with an optional
fractional part (at least one digit overall). -/
def parseUnsigned (u : Str) : Option ℚ :=
  match splitOn 46 u with
  | [ip] => if ip.all isDigit && !ip.isEmpty then some ((digitsVal ip : ℚ)) else none
  | [ip, fp] =>
      if (ip.all isDigit && fp.all isDigit) && !(ip.isEmpty && fp.isEmpty) then
        some ((digitsVal ip : ℚ) + (digitsVal fp : ℚ) / (10 ^ fp.length))
      else none
  | _ => none

/-- Modelled from the library call `float(...)` in load_data, restricted to
plain decimal literals (optional sign, digits, optional fractional part,
surrounding whitespace) — the form Jefit tokens carry. Any other input
raises `ValueError`, modelled as `none`. -/
def parseFloat (s : Str) : Option ℚ :=
  match strip s with
  | 45 :: rest => (parseUnsigned rest).map fun q => -q
  | 43 :: rest => parseUnsigned rest
  | t => parseUnsigned t

/-- Modelled from the library call `pd.to_datetime` with its generic parser,
restricted to ISO `yyyy-mm-dd` strings — the form the Strong `Date` and
Jefit `mydate` columns carry. The result is a minute-resolution comparable
key `yyyymmdd * 10000`; an unparseable string raises, modelled as `none`. -/
def parseDate (s : Str) : Option Nat :=
  match splitOn 45 (strip s) with
  | [y, m, d] =>
    match parseNat y, parseNat m, parseNat d with
    | some yn, some mn, some dn =>
        if 1 ≤ mn && mn ≤ 12 && 1 ≤ dn && dn ≤ 31 then
          some (((yn * 100 + mn) * 100 + dn) * 10000)
        else none
    | _, _, _ => none
  | _ => none

/-- English month abbreviations used by strptime `%b`. -/
def monthNum (m : Str) : Option Nat :=
  if m = pyStr "Jan" then some 1
  else if m = pyStr "Feb" then some 2
  else if m = pyStr "Mar" then some 3
  else if m = pyStr "Apr" then some 4
  else if m = pyStr "May" then some 5
  else if m = pyStr "Jun" then some 6
  else if m = pyStr "Jul" then some 7
  else if m = pyStr "Aug" then some 8
  else if m = pyStr "Sep" then some 9
  else if m = pyStr "Oct" then some 10
  else if m = pyStr "Nov" then some 11
  else if m = pyStr "Dec" then some 12
  else none

/-- Modelled from `pd.to_datetime(..., format="%d %b %Y, %H:%M")` applied to
the Hevy `start_time` column, e.g. `"21 Mar 2024, 18:30"`; yields the same
minute-resolution key scale as `parseDate`. -/
def parseHevyDate (s : Str) : Option Nat :=
  match splitOn 44 s with
  | [dmy, hm] =>
    match splitOn 32 (strip dmy) with
    | [d, mon, y] =>
      match parseNat d, monthNum mon, parseNat y, splitOn 58 (strip hm) with
      | some dn, some mn, some yn, [hh, mi] =>
        match parseNat hh, parseNat mi with
        | some h, some m2 =>
          if 1 ≤ dn && dn ≤ 31 && h ≤ 23 && m2 ≤ 59 then
            some ((((yn * 100 + mn) * 100 + dn) * 100 + h) * 100 + m2)
          else none
        | _, _ => none
      | _, _, _, _ => none
    | _ => none
  | _ => none

/-- Canonical pre-merge record: the common columns
`[date, exercise, weight, reps, set_number, source]` selected in load_data. -/
structure PreRecord : Type where
  date : Nat
  exercise : Str
  weight : ℚ
  reps : ℚ
  set_number : Nat
  source : Source
deriving DecidableEq

/-- Canonical Set Record after the merge adds the derived `one_rm` column. -/
structure SetRecord : Type where
  date : Nat
  exercise : Str
  weight : ℚ
  reps : ℚ
  set_number : Nat
  source : Source
  one_rm : ℚ
deriving DecidableEq

/-- Derived-metric step of load_data:
`combined_df["one_rm"] = combined_df.apply(lambda x: calculate_1rm(...))`. -/
def addOneRm (r : PreRecord) : SetRecord :=
  { date := r.date, exercise := r.exercise, weight := r.weight, reps := r.reps,
    set_number := r.set_number, source := r.source,
    one_rm := calculate_1rm r.weight r.reps }

/-- Python exception escaping load_data (the spec's `MalformedRowError`
taxonomy: unparseable date, non-numeric weight/reps, bad Jefit token). -/
inductive LoadError : Type
  | malformedRow
deriving DecidableEq

/-- Raw Hevy CSV row (columns used by load_data; numeric columns are already
typed by `read_csv`). -/
structure HevyRow : Type where
  start_time : Str
  exercise_title : Str
  weight_kg : ℚ
  reps : ℚ
  set_index : Nat
deriving DecidableEq

/-- Raw Strong CSV row: columns `Date`, `Exercise Name`, `Weight`, `Reps`,
`Set Order`. -/
structure StrongRow : Type where
  date_str : Str
  exercise_name : Str
  weight : ℚ
  reps : ℚ
  set_order : Nat
deriving DecidableEq

/-- Raw Jefit CSV row: columns `mydate`, `ename`, `logs`. -/
structure JefitRow : Type where
  mydate : Str
  ename : Str
  logs : Str
deriving DecidableEq

/-- Hevy branch of load_data: parse `start_time`, normalize the exercise
name, rename `weight_kg`, convert the zero-based `set_index` to 1-based. -/
def processHevy : List HevyRow → Except LoadError (List PreRecord)
  | [] => Except.ok []
  | r :: rest =>
    match parseHevyDate r.start_time, processHevy rest with
    | some d, Except.ok tail =>
        Except.ok ({ date := d, exercise := standardize_exercise_name r.exercise_title,
                     weight := r.weight_kg, reps := r.reps, set_number := r.set_index + 1,
                     source := Source.hevy } :: tail)
    | some _, Except.error e => Except.error e
    | none, _ => Except.error LoadError.malformedRow

/-- Strong branch of load_data: parse `Date`, normalize `Exercise Name`,
take `Weight`, `Reps`, `Set Order` verbatim. -/
def processStrong : List StrongRow → Except LoadError (List PreRecord)
  | [] => Except.ok []
  | r :: rest =>
    match parseDate r.date_str, processStrong rest with
    | some d, Except.ok tail =>
        Except.ok ({ date := d, exercise := standardize_exercise_name r.exercise_name,
                     weight := r.weight, reps := r.reps, set_number := r.set_order,
                     source := Source.strong } :: tail)
    | some _, Except.error e => Except.error e
    | none, _ => Except.error LoadError.malformedRow

/-- Jefit set expansion, following the inner loop
`for i, set_info in enumerate(row["logs"].split(","))` of load_data from
position `i`: a token that strips to empty is skipped but consumes its
position; any other token must split on `x` into exactly two floats. -/
def expandTokens (d : Nat) (ex : Str) : Nat → List Str → Except LoadError (List PreRecord)
  | _, [] => Except.ok []
  | i, tok :: rest =>
    if strip tok ≠ [] then
      match splitOn 120 tok with
      | [a, b] =>
        match parseFloat a, parseFloat b, expandTokens d ex (i + 1) rest with
        | some w, some rp, Except.ok tail =>
            Except.ok ({ date := d, exercise := ex, weight := w, reps := rp,
                         set_number := i + 1, source := Source.jefit } :: tail)
        | some _, some _, Except.error e => Except.error e
        | _, _, _ => Except.error LoadError.malformedRow
      | _ => Except.error LoadError.malformedRow
    else expandTokens d ex (i + 1) rest

/-- Vectorized first phase of the Jefit branch:
`pd.to_datetime(jefit_df["mydate"])` and exercise normalization. -/
def parseJefitDates : List JefitRow → Except LoadError (List (Nat × Str × Str))
  | [] => Except.ok []
  | r :: rest =>
    match parseDate r.mydate, parseJefitDates rest with
    | some d, Except.ok tail =>
        Except.ok ((d, standardize_exercise_name r.ename, r.logs) :: tail)
    | some _, Except.error e => Except.error e
    | none, _ => Except.error LoadError.malformedRow

/-- Second phase of the Jefit branch: expand each row's `logs` field. -/
def expandRows : List (Nat × Str × Str) → Except LoadError (List PreRecord)
  | [] => Except.ok []
  | (d, ex, logs) :: rest =>
    match expandTokens d ex 0 (splitOn 44 logs), expandRows rest with
    | Except.ok recs, Except.ok tail => Except.ok (recs ++ tail)
    | Except.ok _, Except.error e => Except.error e
    | Except.error e, _ => Except.error e

/-- Jefit branch of load_data. -/
def processJefit (rows : List JefitRow) : Except LoadError (List PreRecord) :=
  match parseJefitDates rows with
  | Except.ok dated => expandRows dated
  | Except.error e => Except.error e

/-- Final chronological sort of load_data. The source line is
`combined_df.sort_values("date")`; its default algorithm guarantees a sorted
permutation but documents no stability, so the stability of the `mergeSort`
representative used here is a property of the model only, never cited as a
property of the source. -/
def sortByDate (l : List SetRecord) : List SetRecord :=
  l.mergeSort fun a b => a.date ≤ b.date

/-- Source of `DataProcessor.load_data` after the per-source frames are
read: process each non-empty source, select the common columns, concatenate
in the order Hevy, Strong, Jefit, derive `one_rm` and sort by date. A Python
exception in any branch propagates out of the single function body. -/
def load_data (hevy : List HevyRow) (strong : List StrongRow) (jefit : List JefitRow) :
    Except LoadError (List SetRecord) :=
  match (if hevy.isEmpty then Except.ok [] else processHevy hevy) with
  | Except.error e => Except.error e
  | Except.ok h =>
    match (if strong.isEmpty then Except.ok [] else processStrong strong) with
    | Except.error e => Except.error e
    | Except.ok s =>
      match (if jefit.isEmpty then Except.ok [] else processJefit jefit) with
      | Except.error e => Except.error e
      | Except.ok j =>
        let combined := h ++ s ++ j
        if combined.isEmpty then Except.ok []
        else Except.ok (sortByDate (combined.map addOneRm))

/-- Row of the get_top_sets result: date at calendar-day granularity
(strftime `"%Y-%m-%d"` modelled as truncation of the minute key), weight,
reps, one_rm and source. -/
structure TopSetRow : Type where
  date : Nat
  weight : ℚ
  reps : ℚ
  one_rm : ℚ
  source : Source
deriving DecidableEq

/-- Column projection done by get_top_sets. -/
def projectTopSet (r : SetRecord) : TopSetRow :=
  { date := r.date / 10000, weight := r.weight, reps := r.reps,
    one_rm := r.one_rm, source := r.source }

/-- Source of `WorkoutAnalyzer.get_top_sets`: filter rows whose exercise
equals the given name, keep the `limit` rows of largest `one_rm`
(pandas `nlargest`: descending, earlier rows first on ties), project the
display columns, and sort descending by `one_rm`. -/
def get_top_sets (df : List SetRecord) (exercise : Str) (limit : Nat) : List TopSetRow :=
  let hits := df.filter fun r => r.exercise = exercise
  let top := (hits.mergeSort fun a b => b.one_rm ≤ a.one_rm).take limit
  top.map projectTopSet

/-- Maximum of a list of rationals (groups are nonempty wherever this is
applied, matching pandas `max` over a nonempty group). -/
def maxQ : List ℚ → ℚ
  | [] => 0
  | x :: xs => xs.foldl max x

/-- Arithmetic mean (pandas `mean`). -/
def meanQ (l : List ℚ) : ℚ := l.sum / l.length

/-- Lexicographic order on code-point strings; pandas groupby sorts its
group keys ascending in this order. -/
def strLe : Str → Str → Bool
  | [], _ => true
  | _ :: _, [] => false
  | a :: as, b :: bs => if a < b then true else if b < a then false else strLe as bs

/-- Row of the get_exercise_details result. -/
structure ExerciseSummaryRow : Type where
  exercise : Str
  max_weight : ℚ
  avg_weight : ℚ
  max_reps : ℚ
  avg_reps : ℚ
  max_one_rm : ℚ
  avg_one_rm : ℚ
  total_sets : Nat
deriving DecidableEq

/-- Source of `WorkoutAnalyzer.get_exercise_details`: group by exercise
(keys ascending), aggregate max/mean of weight, reps and one_rm plus the
row count, then sort descending by max one_rm. -/
def get_exercise_details (df : List SetRecord) : List ExerciseSummaryRow :=
  let keys := ((df.map fun r => r.exercise).dedup).mergeSort strLe
  let rows := keys.map fun k =>
    let g := df.filter fun r => r.exercise = k
    { exercise := k,
      max_weight := maxQ (g.map fun r => r.weight),
      avg_weight := meanQ (g.map fun r => r.weight),
      max_reps := maxQ (g.map fun r => r.reps),
      avg_reps := meanQ (g.map fun r => r.reps),
      max_one_rm := maxQ (g.map fun r => r.one_rm),
      avg_one_rm := meanQ (g.map fun r => r.one_rm),
      total_sets := g.length : ExerciseSummaryRow }
  rows.mergeSort fun a b => b.max_one_rm ≤ a.max_one_rm

/-- Row of the get_app_comparison result. -/
structure AppComparisonRow : Type where
  app : Source
  total_sets : Nat
  total_volume : ℚ
  max_one_rm : ℚ
  workout_days : Nat
deriving DecidableEq

/-- Source of `WorkoutAnalyzer.get_app_comparison`: group by source (pandas
sorts the group keys by app name, and "Hevy" < "Jefit" < "Strong"); per
group count the rows, sum `weight * reps` record by record (the lambda
`(x * df.loc[x.index, "reps"]).sum()`), take the max `one_rm` and count the
distinct dates. -/
def get_app_comparison (df : List SetRecord) : List AppComparisonRow :=
  let keys := [Source.hevy, Source.jefit, Source.strong].filter
    fun s => df.any fun r => r.source = s
  keys.map fun s =>
    let g := df.filter fun r => r.source = s
    { app := s,
      total_sets := g.length,
      total_volume := (g.map fun r => r.weight * r.reps).sum,
      max_one_rm := maxQ (g.map fun r => r.one_rm),
      workout_days := ((g.map fun r => r.date).dedup).length }


/-- An instance allowing concrete `Except` results of the pipeline to be
checked by evaluation. -/
instance {ε α : Type} [DecidableEq ε] [DecidableEq α] : DecidableEq (Except ε α) :=
  fun a b =>
    match a, b with
    | Except.ok x, Except.ok y =>
        if h : x = y then isTrue (by rw [h]) else isFalse (by intro hc; cases hc; exact h rfl)
    | Except.error x, Except.error y =>
        if h : x = y then isTrue (by rw [h]) else isFalse (by intro hc; cases hc; exact h rfl)
    | Except.ok _, Except.error _ => isFalse (by intro hc; cases hc)
    | Except.error _, Except.ok _ => isFalse (by intro hc; cases hc)

/-- Concrete Hevy sample row used to instantiate the general theorems. -/
def hevySample : HevyRow :=
  { start_time := pyStr "21 Mar 2024, 18:30", exercise_title := pyStr "Squat",
    weight_kg := 100, reps := 5, set_index := 0 }

/-- Second concrete Hevy sample row. -/
def hevySample2 : HevyRow :=
  { start_time := pyStr "22 Mar 2024, 07:10", exercise_title := pyStr "Deadlift",
    weight_kg := 120, reps := 3, set_index := 1 }

/-- Jefit row whose logs token does not split on `x` into two parts. -/
def jefitBad : JefitRow :=
  { mydate := pyStr "2024-03-22", ename := pyStr "Bench", logs := pyStr "oops" }

/-- Jefit row whose logs token splits on `x` but has a missing numeric part. -/
def jefitBad2 : JefitRow :=
  { mydate := pyStr "2024-03-23", ename := pyStr "Row", logs := pyStr "100x" }

/-- Hevy row whose start_time does not match the `%d %b %Y, %H:%M` format. -/
def hevyBadDate : HevyRow :=
  { start_time := pyStr "2024-03-22", exercise_title := pyStr "Squat",
    weight_kg := 90, reps := 4, set_index := 0 }

/-- Strong row whose Date column is unparseable. -/
def strongBadDate : StrongRow :=
  { date_str := pyStr "not a date", exercise_name := pyStr "Curl",
    weight := 20, reps := 12, set_order := 1 }

/-- Canonical records matching the SourceComparison example of the spec:
weights 100 and 50, reps 5 and 10, all in one source. -/
def volumeSample : List SetRecord :=
  [ { date := 202401020000, exercise := pyStr "squat", weight := 100, reps := 5,
      set_number := 1, source := Source.jefit, one_rm := 100 },
    { date := 202401020000, exercise := pyStr "squat", weight := 50, reps := 10,
      set_number := 2, source := Source.jefit, one_rm := 60 } ]

/-- Canonical records matching the TopSets example of the spec: four records
of the queried exercise plus one other. -/
def topSample : List SetRecord :=
  [ { date := 202401010000, exercise := pyStr "Barbell Bench Press", weight := 80, reps := 8,
      set_number := 1, source := Source.hevy, one_rm := 100 },
    { date := 202401020000, exercise := pyStr "Barbell Bench Press", weight := 90, reps := 3,
      set_number := 1, source := Source.strong, one_rm := 99 },
    { date := 202401030000, exercise := pyStr "squat", weight := 140, reps := 5,
      set_number := 1, source := Source.jefit, one_rm := 160 },
    { date := 202401040000, exercise := pyStr "Barbell Bench Press", weight := 100, reps := 2,
      set_number := 2, source := Source.hevy, one_rm := 110 },
    { date := 202401050000, exercise := pyStr "Barbell Bench Press", weight := 85, reps := 6,
      set_number := 3, source := Source.jefit, one_rm := 102 } ]

end VibeWorkout

namespace VibeWorkout

/-- Membership is preserved by the chronological sort. -/
theorem mem_sortByDate {a : SetRecord} {l : List SetRecord} : a ∈ sortByDate l ↔ a ∈ l := by
  simp [sortByDate]

/-- Every record of a successful load_data run carries the Epley-derived
one_rm of its own weight and reps. -/
theorem load_data_one_rm {hevy : List HevyRow} {strong : List StrongRow} {jefit : List JefitRow}
    {l : List SetRecord} (hl : load_data hevy strong jefit = Except.ok l) :
    ∀ rec ∈ l, rec.one_rm = calculate_1rm rec.weight rec.reps := by
  intro rec hrec
  unfold load_data at hl
  split at hl
  · exact absurd hl (by simp)
  · split at hl
    · exact absurd hl (by simp)
    · split at hl
      · exact absurd hl (by simp)
      · dsimp only at hl
        split at hl
        · cases hl; simp at hrec
        · cases hl
          rw [mem_sortByDate] at hrec
          obtain ⟨p, hp, rfl⟩ := List.mem_map.mp hrec
          simp [addOneRm]

/-- C1: for weight ≥ 0 and reps > 0 the Metric Calculator returns
`weight * (1 + reps/30)`, this value is at least the weight, and every
record of the merged canonical set has its one_rm field equal to this
function of its own weight and reps, regardless of source. -/
theorem C1_one_rm (w r : ℚ) (hw : 0 ≤ w) (hr : 0 < r)
    (hevy : List HevyRow) (strong : List StrongRow) (jefit : List JefitRow)
    (l : List SetRecord) (hl : load_data hevy strong jefit = Except.ok l) :
    calculate_1rm w r = w * (1 + r / 30) ∧
    w ≤ calculate_1rm w r ∧
    ∀ rec ∈ l, rec.one_rm = calculate_1rm rec.weight rec.reps := by
  refine ⟨rfl, ?_, load_data_one_rm hl⟩
  have h1 : 0 ≤ w * r := mul_nonneg hw hr.le
  unfold calculate_1rm
  nlinarith

/-- Witness for C1 at weight 100, reps 10 and a concrete (empty) load. -/
theorem C1_one_rm_witness :
    (0:ℚ) ≤ 100 ∧ (0:ℚ) < 10 ∧
    (calculate_1rm 100 10 = 100 * (1 + 10 / 30) ∧
     (100:ℚ) ≤ calculate_1rm 100 10 ∧
     ∀ rec ∈ ([] : List SetRecord), rec.one_rm = calculate_1rm rec.weight rec.reps) :=
  ⟨by decide, by decide, C1_one_rm 100 10 (by decide) (by decide) [] [] [] [] rfl⟩

/-- Auxiliary for C2: a successful expansion maps its records' set numbers
exactly onto the 1-based positions of the non-blank tokens, blanks included
in the position count. -/
theorem expandTokens_ok_set_numbers (d : Nat) (ex : Str) (toks : List Str) :
    ∀ (i : Nat) (recs : List PreRecord),
      expandTokens d ex i toks = Except.ok recs →
      recs.map (fun r => r.set_number)
        = ((toks.enumFrom i).filter fun p => strip p.2 ≠ []).map fun p => p.1 + 1 := by
  induction toks with
  | nil =>
      intro i recs h
      rw [expandTokens] at h
      cases h
      simp
  | cons tok rest ih =>
      intro i recs h
      rw [expandTokens] at h
      by_cases hs : strip tok = []
      · rw [if_neg (by simp [hs])] at h
        simp only [List.enumFrom_cons, List.filter_cons]
        rw [show (decide (strip tok ≠ [])) = false by simp [hs]]
        simpa using ih (i + 1) recs h
      · rw [if_pos hs] at h
        split at h
        · split at h
          · rename_i a b w rp tail hpa hpb htail
            cases h
            simp only [List.map_cons, List.enumFrom_cons, List.filter_cons]
            rw [show (decide (strip tok ≠ [])) = true by simp [hs]]
            simp only [List.map_cons]
            exact congrArg (List.cons (i + 1)) (ih (i + 1) tail htail)
          · cases h
          · cases h
        · cases h

/-- Counting positions does not change how many tokens pass a filter on the
token itself. -/
theorem length_filter_enumFrom (q : Str → Bool) (l : List Str) :
    ∀ i : Nat, ((l.enumFrom i).filter fun p => q p.2).length = (l.filter q).length := by
  induction l with
  | nil => intro i; rfl
  | cons a as ih =>
      intro i
      simp only [List.enumFrom_cons, List.filter_cons]
      cases hq : q a <;> simp [hq, ih (i + 1)]

/-- C2: splitting a Jefit logs field on commas and enumerating from zero, a
blank token yields no record but still consumes its position, every
non-blank token yields exactly one record with set_number = position + 1,
and `"100x10,,80x12"` expands to exactly two records with set numbers 1 and
3 — the gap is preserved. -/
theorem C2_jefit_expansion (d : Nat) (ex : Str) (logs : Str) (recs : List PreRecord)
    (h : expandTokens d ex 0 (splitOn 44 logs) = Except.ok recs) :
    recs.map (fun r => r.set_number)
      = (((splitOn 44 logs).enum).filter fun p => strip p.2 ≠ []).map (fun p => p.1 + 1) ∧
    recs.length = ((splitOn 44 logs).filter fun t => strip t ≠ []).length ∧
    (expandTokens 0 (pyStr "") 0 (splitOn 44 (pyStr "100x10,,80x12"))).map
      (fun l => l.map fun r => r.set_number) = Except.ok [1, 3] := by
  have hmain := expandTokens_ok_set_numbers d ex (splitOn 44 logs) 0 recs h
  refine ⟨by rw [List.enum_eq_enumFrom]; exact hmain, ?_, by decide⟩
  have hlen := congrArg List.length hmain
  simp only [List.length_map] at hlen
  rw [hlen]
  exact length_filter_enumFrom (fun t => decide (strip t ≠ [])) (splitOn 44 logs) 0

/-- Witness for C2 at the spec's example logs value. -/
theorem C2_jefit_expansion_witness :
    expandTokens 7 (pyStr "bench") 0 (splitOn 44 (pyStr "100x10,,80x12")) = Except.ok
      [ { date := 7, exercise := pyStr "bench", weight := 100, reps := 10,
          set_number := 1, source := Source.jefit },
        { date := 7, exercise := pyStr "bench", weight := 80, reps := 12,
          set_number := 3, source := Source.jefit } ] ∧
    ([ ( { date := 7, exercise := pyStr "bench", weight := 100, reps := 10,
           set_number := 1, source := Source.jefit } : PreRecord),
       { date := 7, exercise := pyStr "bench", weight := 80, reps := 12,
         set_number := 3, source := Source.jefit } ].map fun r => r.set_number)
      = (((splitOn 44 (pyStr "100x10,,80x12")).enum).filter fun p => strip p.2 ≠ []).map
          (fun p => p.1 + 1) :=
  ⟨by decide, (C2_jefit_expansion 7 (pyStr "bench") (pyStr "100x10,,80x12") _ (by decide)).1⟩

/-- C3: the normalizer lowercases its input and applies the ordered rule
list with first match winning; with no match it returns the lowercased
input unchanged. -/
theorem C3_normalizer_rules (s : Str) :
    (pyStr "lat pulldown" <:+: lower s →
      standardize_exercise_name s = pyStr "Lat Pulldown (All Variations)") ∧
    (¬ (pyStr "lat pulldown" <:+: lower s) →
      (pyStr "barbell bench press" <:+: lower s ∨ pyStr "bench press (barbell)" <:+: lower s) →
      standardize_exercise_name s = pyStr "Barbell Bench Press") ∧
    (¬ (pyStr "lat pulldown" <:+: lower s) →
      ¬ (pyStr "barbell bench press" <:+: lower s ∨ pyStr "bench press (barbell)" <:+: lower s) →
      (pyStr "dumbbell bench press" <:+: lower s ∨ pyStr "bench press (dumbbell)" <:+: lower s) →
      standardize_exercise_name s = pyStr "Dumbbell Bench Press") ∧
    (¬ (pyStr "lat pulldown" <:+: lower s) →
      ¬ (pyStr "barbell bench press" <:+: lower s ∨ pyStr "bench press (barbell)" <:+: lower s) →
      ¬ (pyStr "dumbbell bench press" <:+: lower s ∨ pyStr "bench press (dumbbell)" <:+: lower s) →
      standardize_exercise_name s = lower s) := by
  unfold standardize_exercise_name isSubstr
  refine ⟨?_, ?_, ?_, ?_⟩ <;> intros <;> simp_all

/-- Witness for C3 at the spec's example `"Bench Press (Barbell)"`. -/
theorem C3_normalizer_witness :
    standardize_exercise_name (pyStr "Bench Press (Barbell)") = pyStr "Barbell Bench Press" :=
  (C3_normalizer_rules (pyStr "Bench Press (Barbell)")).2.1 (by decide) (Or.inr (by decide))

/-- Counterexample for C4: on a sample having both the Hevy and the Strong
signature column, detection returns Hevy although `"Exercise Name"` is
present, so "Strong iff Exercise Name present" fails as a biconditional. -/
theorem C4_counterexample :
    pyStr "Exercise Name" ∈ [pyStr "exercise_title", pyStr "Exercise Name"] ∧
    detect_source_type [pyStr "exercise_title", pyStr "Exercise Name"] = some Source.hevy ∧
    detect_source_type [pyStr "exercise_title", pyStr "Exercise Name"] ≠ some Source.strong :=
  ⟨by decide, by decide, by decide⟩

/-- C4 (amended): detection is first-match-wins in the order Hevy, Strong,
Jefit — Hevy iff exercise_title is present; Strong iff Exercise Name is
present and exercise_title is not; Jefit iff ename and logs are present and
neither earlier signature is; otherwise the result is None (Unrecognized),
never a guessed source. -/
theorem C4_detection_first_match (cols : List Str) :
    (detect_source_type cols = some Source.hevy ↔ pyStr "exercise_title" ∈ cols) ∧
    (detect_source_type cols = some Source.strong ↔
      (pyStr "Exercise Name" ∈ cols ∧ pyStr "exercise_title" ∉ cols)) ∧
    (detect_source_type cols = some Source.jefit ↔
      (pyStr "ename" ∈ cols ∧ pyStr "logs" ∈ cols ∧
        pyStr "exercise_title" ∉ cols ∧ pyStr "Exercise Name" ∉ cols)) ∧
    (detect_source_type cols = none ↔
      (pyStr "exercise_title" ∉ cols ∧ pyStr "Exercise Name" ∉ cols ∧
        ¬ (pyStr "ename" ∈ cols ∧ pyStr "logs" ∈ cols))) := by
  unfold detect_source_type
  split_ifs <;> simp_all

end VibeWorkout

namespace VibeWorkout

/-- Comparator rewriting used by the aggregation proofs: the descending
one_rm sort produced by mergeSort is pairwise descending. -/
theorem pairwise_desc_mergeSort (l : List SetRecord) :
    (l.mergeSort fun a b => b.one_rm ≤ a.one_rm).Pairwise fun a b => b.one_rm ≤ a.one_rm := by
  have h := @List.sorted_mergeSort SetRecord (fun a b : SetRecord => decide (b.one_rm ≤ a.one_rm))
    (fun a b c hab hbc => by
      simp only [decide_eq_true_eq] at *
      exact le_trans hbc hab)
    (fun a b => by
      simp only [Bool.or_eq_true, decide_eq_true_eq]
      exact le_total b.one_rm a.one_rm) l
  exact h.imp fun hab => of_decide_eq_true hab

/-- C6: TopSets keeps exactly the records whose exercise equals the queried
name, returns min(limit, matches) of them sorted descending by one_rm,
projected to date/weight/reps/one_rm/source; with at most `limit` matches it
returns all of them, and no returned row can be beaten by an unreturned
matching record of strictly larger one_rm. -/
theorem C6_top_sets (df : List SetRecord) (ex : Str) (limit : Nat) :
    (get_top_sets df ex limit).length = min limit (df.filter fun r => r.exercise = ex).length ∧
    (get_top_sets df ex limit).Pairwise (fun a b => b.one_rm ≤ a.one_rm) ∧
    (∀ t ∈ get_top_sets df ex limit, ∃ r ∈ df, r.exercise = ex ∧ projectTopSet r = t) ∧
    ((df.filter fun r => r.exercise = ex).length ≤ limit →
      (get_top_sets df ex limit).Perm ((df.filter fun r => r.exercise = ex).map projectTopSet)) ∧
    (∀ t ∈ get_top_sets df ex limit, ∀ r ∈ df, r.exercise = ex → t.one_rm < r.one_rm →
      projectTopSet r ∈ get_top_sets df ex limit) := by
  have hperm := List.mergeSort_perm (df.filter fun r => r.exercise = ex)
    (fun a b => b.one_rm ≤ a.one_rm)
  have hpw := pairwise_desc_mergeSort (df.filter fun r => r.exercise = ex)
  refine ⟨?_, ?_, ?_, ?_, ?_⟩
  · simp [get_top_sets]
  · simp only [get_top_sets]
    exact List.pairwise_map.mpr (hpw.sublist (List.take_sublist _ _))
  · intro t ht
    simp only [get_top_sets, List.mem_map] at ht
    obtain ⟨a, ha, rfl⟩ := ht
    have ha2 : a ∈ df.filter fun r => r.exercise = ex :=
      List.mem_mergeSort.mp (List.mem_of_mem_take ha)
    have := List.mem_filter.mp ha2
    exact ⟨a, this.1, of_decide_eq_true this.2, rfl⟩
  · intro hlen
    simp only [get_top_sets]
    rw [List.take_of_length_le (by rw [List.length_mergeSort]; exact hlen)]
    exact hperm.map projectTopSet
  · intro t ht r hr hex hlt
    have hrhits : r ∈ df.filter fun x => x.exercise = ex :=
      List.mem_filter.mpr ⟨hr, decide_eq_true hex⟩
    have hrS : r ∈ (df.filter fun x => x.exercise = ex).mergeSort
        fun a b => b.one_rm ≤ a.one_rm := List.mem_mergeSort.mpr hrhits
    simp only [get_top_sets, List.mem_map] at ht ⊢
    obtain ⟨a, ha, rfl⟩ := ht
    rw [← List.take_append_drop limit ((df.filter fun x => x.exercise = ex).mergeSort
      fun a b => b.one_rm ≤ a.one_rm)] at hrS
    rcases List.mem_append.mp hrS with htake | hdrop
    · exact ⟨r, htake, rfl⟩
    · exfalso
      have hpw2 := hpw
      rw [← List.take_append_drop limit ((df.filter fun x => x.exercise = ex).mergeSort
        fun a b => b.one_rm ≤ a.one_rm)] at hpw2
      have hcross := (List.pairwise_append.mp hpw2).2.2 a ha r hdrop
      simp only [projectTopSet] at hlt
      exact absurd hcross (not_le.mpr hlt)

/-- Witness for C6 at the spec's example: limit 10 with only 4 matching
records returns exactly those 4. -/
theorem C6_top_sets_witness :
    (topSample.filter fun r => r.exercise = pyStr "Barbell Bench Press").length ≤ 10 ∧
    (get_top_sets topSample (pyStr "Barbell Bench Press") 10).Perm
      ((topSample.filter fun r => r.exercise = pyStr "Barbell Bench Press").map projectTopSet) :=
  ⟨by decide, (C6_top_sets topSample (pyStr "Barbell Bench Press") 10).2.2.2.1 (by decide)⟩

/-- C7: every row of SourceComparison carries as total volume the sum, over
the records of its own source group, of that record's weight times that
record's reps; on the spec's two-record example the volume is 1000. -/
theorem C7_source_volume (df : List SetRecord) :
    ((get_app_comparison df).map fun row => row.total_volume)
      = ((get_app_comparison df).map fun row =>
          ((df.filter fun r => r.source = row.app).map fun r => r.weight * r.reps).sum) ∧
    ((get_app_comparison volumeSample).map fun row => row.total_volume) = [1000] := by
  constructor
  · simp only [get_app_comparison, List.map_map]
    apply List.map_congr_left
    intro s hs
    simp
  · simp [get_app_comparison, volumeSample, List.filter]
    norm_num

/-- C8: all three aggregation operations return an empty collection on an
empty record collection. -/
theorem C8_empty_inputs (ex : Str) (limit : Nat) :
    get_top_sets [] ex limit = [] ∧ get_exercise_details [] = [] ∧ get_app_comparison [] = [] := by
  refine ⟨?_, ?_, rfl⟩
  · simp [get_top_sets]
  · simp [get_exercise_details]

/-- Counterexample for C9: with a well-formed Hevy row and a malformed Jefit
row, load_data returns the error — no canonical set is produced from the
sources that loaded successfully, contrary to the claim. -/
theorem C9_counterexample :
    load_data [hevySample] [] [jefitBad] = Except.error LoadError.malformedRow ∧
    ∀ l : List SetRecord, load_data [hevySample] [] [jefitBad] ≠ Except.ok l := by
  have h : load_data [hevySample] [] [jefitBad] = Except.error LoadError.malformedRow := by decide
  exact ⟨h, fun l hl => by rw [h] at hl; cases hl⟩

/-- C9 (amended): a malformed row in any of the three sources aborts the
entire load_data call — the error propagates out of the single function
body and no merged set is built, even when the other sources are
well-formed. -/
theorem C9_amended_abort_all (hevy : List HevyRow) (strong : List StrongRow)
    (jefit : List JefitRow)
    (h : processHevy hevy = Except.error LoadError.malformedRow
       ∨ processStrong strong = Except.error LoadError.malformedRow
       ∨ processJefit jefit = Except.error LoadError.malformedRow) :
    load_data hevy strong jefit = Except.error LoadError.malformedRow := by
  have herr : ∀ e : LoadError, e = LoadError.malformedRow := fun e => by cases e; rfl
  unfold load_data
  rcases h with hh | hs | hj
  · have hne : hevy.isEmpty = false := by
      cases hevy with
      | nil => simp [processHevy] at hh
      | cons a b => rfl
    simp [hne, hh]
  · have hne : strong.isEmpty = false := by
      cases strong with
      | nil => simp [processStrong] at hs
      | cons a b => rfl
    cases h1 : (if hevy.isEmpty = true then Except.ok [] else processHevy hevy) with
    | error e => rw [herr e] at h1
    | ok ph => simp [h1, hne, hs]
  · have hne : jefit.isEmpty = false := by
      cases jefit with
      | nil => simp [processJefit, parseJefitDates, expandRows] at hj
      | cons a b => rfl
    cases h1 : (if hevy.isEmpty = true then Except.ok [] else processHevy hevy) with
    | error e => rw [herr e] at h1
    | ok ph =>
      cases h2 : (if strong.isEmpty = true then Except.ok [] else processStrong strong) with
      | error e => rw [herr e] at h2
      | ok ps => simp [h1, h2, hne, hj]

/-- Witness for the amended C9: a malformed row in each of the three
sources in turn aborts the whole load at concrete inputs. -/
theorem C9_amended_witness :
    load_data [hevyBadDate] [] [] = Except.error LoadError.malformedRow ∧
    load_data [] [strongBadDate] [] = Except.error LoadError.malformedRow ∧
    load_data [hevySample2] [] [jefitBad2] = Except.error LoadError.malformedRow :=
  ⟨C9_amended_abort_all [hevyBadDate] [] [] (Or.inl (by decide)),
   C9_amended_abort_all [] [strongBadDate] [] (Or.inr (Or.inl (by decide))),
   C9_amended_abort_all [hevySample2] [] [jefitBad2] (Or.inr (Or.inr (by decide)))⟩

/-- One lowering step is idempotent on a code point. -/
theorem lowerChar_idem (n : Nat) : lowerChar (lowerChar n) = lowerChar n := by
  unfold lowerChar
  split_ifs with h1 h2 <;> first | rfl | omega

/-- Lowercasing is idempotent. -/
theorem lower_idem (s : Str) : lower (lower s) = lower s := by
  simp only [lower, List.map_map]
  exact List.map_congr_left fun a _ => lowerChar_idem a

/-- C10: the exercise name normalizer is idempotent — each canonical output
still matches its own rule when fed back in, and a lowercased fallback
matches no rule and is returned unchanged. -/
theorem C10_normalizer_idempotent (s : Str) :
    standardize_exercise_name (standardize_exercise_name s) = standardize_exercise_name s := by
  by_cases h1 : isSubstr (pyStr "lat pulldown") (lower s) = true
  · have hs : standardize_exercise_name s = pyStr "Lat Pulldown (All Variations)" := by
      simp only [standardize_exercise_name, h1, if_true]
    rw [hs]; decide
  · by_cases h2 : (isSubstr (pyStr "barbell bench press") (lower s)
        || isSubstr (pyStr "bench press (barbell)") (lower s)) = true
    · have hs : standardize_exercise_name s = pyStr "Barbell Bench Press" := by
        simp only [standardize_exercise_name, h1, h2]
        simp
      rw [hs]; decide
    · by_cases h3 : (isSubstr (pyStr "dumbbell bench press") (lower s)
          || isSubstr (pyStr "bench press (dumbbell)") (lower s)) = true
      · have hs : standardize_exercise_name s = pyStr "Dumbbell Bench Press" := by
          simp only [standardize_exercise_name, h1, h2, h3]
          simp
        rw [hs]; decide
      · have hs : standardize_exercise_name s = lower s := by
          simp only [standardize_exercise_name, h1, h2, h3]
          simp
        rw [hs]
        simp only [standardize_exercise_name, lower_idem, h1, h2, h3]
        simp

end VibeWorkout
